import Mathlib

/-
  Verification of the credential/session manager (`ArcGISIdentityManager`)
  of the arcgis-rest-js repository.

  The JavaScript class is shallowly embedded as a Lean record (`Manager`)
  together with pure state-passing functions, one per method.  The injected
  HTTP transport is a record of oracles (`Transport`); asynchronous promise
  chains are modelled by sequential execution: a method returns the settled
  outcome (`Except AuthError _`), the manager state after settlement, and the
  list of operations (network calls / refresh invocations) it performed.
  JavaScript `Date` values are epoch milliseconds (`Int`); `undefined` /
  absent values are `Option`; JS string truthiness (`""` is falsy) is
  modelled by `truthyS`.
-/

set_option autoImplicit false

/-! ## String machinery for `getServerRootUrl`

The source (ArcGISIdentityManager.js, lines 820-827):

    getServerRootUrl(url) {
        const [root] = cleanUrl(url).split(/\/rest(\/admin)?\/services(?:\/|#|\?|$)/);
        const [match, protocol, domainAndPath] = root.match(/(https?:\/\/)(.+)/);
        const [domain, ...path] = domainAndPath.split("/");
        return protocol + domain.toLowerCase() + "/" + path.join("/");
    }

All primitives below are written on `List Char` with structural recursion so
concrete inputs evaluate by `rfl`/`decide`. -/

/-- `listStartsWith pat cs` is true when `pat` is a prefix of `cs`
(the JS regex literal-match primitive). -/
def listStartsWith : List Char → List Char → Bool
  | [], _ => true
  | _ :: _, [] => false
  | p :: ps, c :: cs => p == c && listStartsWith ps cs

/-- The `(?:\/|#|\?|$)` tail of the services pattern: the next character is a
delimiter, or the string has ended. -/
def servicesDelim : List Char → Bool
  | [] => true
  | c :: _ => c == '/' || c == '#' || c == '?'

/-- Does the regex `\/rest(\/admin)?\/services(?:\/|#|\?|$)` match at the head
of `cs`? -/
def servicesAt (cs : List Char) : Bool :=
  (listStartsWith "/rest/services".data cs && servicesDelim (cs.drop 14)) ||
  (listStartsWith "/rest/admin/services".data cs && servicesDelim (cs.drop 20))

/-- The prefix of `cs` before the first match of the services pattern: the
first element of `cs.split(/\/rest(\/admin)?\/services(?:\/|#|\?|$)/)`. -/
def takeToServices : List Char → List Char
  | [] => []
  | c :: cs => if servicesAt (c :: cs) then [] else c :: takeToServices cs

/-- JS regex `.` excludes line terminators; `.+` from a position takes the
(nonempty) run of non-terminator characters. -/
def restOfLine (cs : List Char) : List Char :=
  cs.takeWhile (fun c => !(c == '\n') && !(c == '\r'))

/-- First match of `(https?:\/\/)(.+)`: scan left to right; at each position
try `https://` then `http://`, requiring a nonempty `.+` remainder; otherwise
advance one character (as the regex engine does). Returns the two capture
groups `(protocol, domainAndPath)`. -/
def findProtocol : List Char → Option (List Char × List Char)
  | [] => none
  | c :: cs =>
    if listStartsWith "https://".data (c :: cs) then
      let rest := restOfLine ((c :: cs).drop 8)
      if rest.isEmpty then findProtocol cs else some ("https://".data, rest)
    else if listStartsWith "http://".data (c :: cs) then
      let rest := restOfLine ((c :: cs).drop 7)
      if rest.isEmpty then findProtocol cs else some ("http://".data, rest)
    else findProtocol cs

/-- JS `String.prototype.split("/")` on character lists; never returns `[]`
(`"".split("/") = [""]`). -/
def splitOnSlash : List Char → List (List Char)
  | [] => [[]]
  | c :: cs =>
    if c == '/' then [] :: splitOnSlash cs
    else
      match splitOnSlash cs with
      | [] => [[c]]
      | p :: ps => (c :: p) :: ps

/-- JS `Array.prototype.join("/")` on character lists. -/
def joinSlash : List (List Char) → List Char
  | [] => []
  | [p] => p
  | p :: ps => p ++ '/' :: joinSlash ps

/-- Modelled from the spec: `cleanUrl` (utils/clean-url.js, imported by the
manager but not among the provided sources) normalizes a URL by stripping the
trailing slash (spec §3: portal is "normalized, trailing slash stripped"). -/
def cleanUrlChars (cs : List Char) : List Char :=
  (cs.reverse.dropWhile (fun c => c == '/')).reverse

/-- Modelled from the spec: string-level `cleanUrl`. -/
def cleanUrl (s : String) : String :=
  String.mk (cleanUrlChars s.data)

/-- `getServerRootUrl` on the characters of an already-supplied URL.
`none` models the synchronous `TypeError` thrown when the protocol
destructuring `root.match(/(https?:\/\/)(.+)/)` yields `null`. -/
def getServerRootUrlChars (cs : List Char) : Option (List Char) :=
  let root := takeToServices (cleanUrlChars cs)
  match findProtocol root with
  | none => none
  | some (proto, domainAndPath) =>
    match splitOnSlash domainAndPath with
    | [] => none
    | domain :: path =>
      some (proto ++ domain.map Char.toLower ++ '/' :: joinSlash path)

/-- `ArcGISIdentityManager.getServerRootUrl` (source lines 820-827). -/
def getServerRootUrl (url : String) : Option String :=
  (getServerRootUrlChars url.data).map String.mk


/-! ## Data model -/

/-- Error codes of `ArcGISTokenRequestError` used by the manager
(utils/ArcGISTokenRequestError.js). -/
inductive ErrCode where
  | TOKEN_REFRESH_FAILED
  | GENERATE_TOKEN_FOR_SERVER_FAILED
  | REFRESH_TOKEN_EXCHANGE_FAILED
  | NOT_FEDERATED
deriving DecidableEq, Repr

/-- Rejection values produced by the manager's asynchronous methods:
a raw transport rejection propagated unwrapped, a typed
`ArcGISTokenRequestError`, or a JS `TypeError` from dereferencing an
`undefined` field. -/
inductive AuthError where
  | transportErr (message : String)
  | tokenRequest (code : ErrCode) (message : String)
  | typeErr
deriving DecidableEq, Repr

/-- Typed error rejected by the injected transport. -/
structure TransportError where
  message : String
deriving DecidableEq, Repr

/-- An entry of `federatedServers`: `{token, expires}`. The constructor can
store `undefined` in either field, hence the `Option`s. -/
structure TokenEntry where
  token : Option String
  expires : Option Int
deriving DecidableEq, Repr

/-- The cached `_user` snapshot (only its `username` matters here). -/
structure UserInfo where
  username : String
deriving DecidableEq, Repr

/-- The cached `_portalInfo` snapshot; a missing
`authorizedCrossOriginDomains` field is the empty list. -/
structure PortalInfo where
  authorizedCrossOriginDomains : List String
deriving DecidableEq, Repr

/-- `{root}/rest/info` (and `{owningSystemUrl}/sharing/rest/info`) response. -/
structure AuthInfo where
  tokenServicesUrl : String
deriving DecidableEq, Repr

structure ServerInfo where
  owningSystemUrl : Option String
  authInfo : Option AuthInfo
deriving DecidableEq, Repr

/-- Response of a `generateToken`-style endpoint. -/
structure GenTokenResponse where
  token : String
  expires : Int
deriving DecidableEq, Repr

/-- Response of `fetchToken` on the `/oauth2/token` endpoint. -/
structure FetchTokenResponse where
  token : String
  expires : Int
  refreshToken : Option String
  refreshTokenExpires : Option Int
deriving DecidableEq, Repr

/-- Parameters of the `generateTokenForServer` request:
`{token: this.token, serverUrl, expiration: this.tokenDuration}`. -/
structure GenTokenParams where
  token : Option String
  serverUrl : String
  expiration : Nat
deriving DecidableEq, Repr

/-- Parameters of the username/password `generateToken` request. -/
structure UPParams where
  username : Option String
  password : Option String
  expiration : Nat
deriving DecidableEq, Repr

/-- Descriptions of the network requests the manager can issue, by call site. -/
inductive NetCall where
  | restInfo (url : String)
  | sharingRestInfo (url : String)
  | generateToken (url : String)
  | oauthToken (url : String) (grantType : String)
  | portalSelf (url : String)
deriving DecidableEq, Repr

/-- Operations recorded in a trace: a network call, or an invocation of
`refreshCredentials` (the spec's "refresh operation"). -/
inductive Op where
  | net (c : NetCall)
  | refreshCall
deriving DecidableEq, Repr

/-- The injected HTTP transport, one oracle per request shape the manager
issues. Each oracle is deterministic, which models the fact that a given
in-flight request settles with a single outcome shared by all awaiters. -/
structure Transport where
  restInfo : String → Except TransportError ServerInfo
  sharingRestInfo : String → Except TransportError ServerInfo
  generateTokenSrv : GenTokenParams → String → Except TransportError GenTokenResponse
  generateTokenUP : String → UPParams → Except TransportError GenTokenResponse
  oauthToken : String → String → Except TransportError FetchTokenResponse
  portalSelf : String → Except TransportError PortalInfo

/-- Ambient environment: the current time (`Date.now()`, epoch ms), the
transport, and the `isFederated` predicate of federation-utils.js (that module
is not among the provided sources; the spec calls it "a pluggable
federation-check predicate", so it is kept abstract here). -/
structure Env where
  now : Int
  tp : Transport
  isFederatedCheck : String → String → Bool

deriving instance DecidableEq for Except

/-- The state of an `ArcGISIdentityManager` instance. Field names follow the
source; `_`-prefixed fields are the private backing fields of getters. -/
structure Manager where
  clientId : Option String
  _refreshToken : Option String
  _refreshTokenExpires : Option Int
  _username : Option String
  password : Option String
  _token : Option String
  _tokenExpires : Option Int
  portal : String
  ssl : Option Bool
  provider : String
  tokenDuration : Nat
  redirectUri : Option String
  server : Option String
  federatedServers : List (String × TokenEntry)
  trustedDomains : List String
  _user : Option UserInfo
  _portalInfo : Option PortalInfo
  /-- `_pendingTokenRequests`: key → stored operation outcome; `some none`
  models an entry explicitly set to `null`. A stored operation is identified
  with its settled outcome (the transport is deterministic). -/
  _pendingTokenRequests : List (String × Option (Except AuthError (Option String)))
deriving DecidableEq, Repr

/-- JS truthiness of an optional string (`undefined` and `""` are falsy). -/
def truthyS : Option String → Bool
  | some s => !(s == "")
  | none => false

/-- The `token` getter. -/
def Manager.token (m : Manager) : Option String := m._token

/-- The `tokenExpires` getter. -/
def Manager.tokenExpires (m : Manager) : Option Int := m._tokenExpires

/-- The `refreshToken` getter. -/
def Manager.refreshToken (m : Manager) : Option String := m._refreshToken

/-- The `refreshTokenExpires` getter. -/
def Manager.refreshTokenExpires (m : Manager) : Option Int := m._refreshTokenExpires

/-- The `username` getter: `_username`, else the cached user's username. -/
def Manager.username (m : Manager) : Option String :=
  match m._username with
  | some u => some u
  | none => m._user.map UserInfo.username

/-- JS object-property lookup on an association list. -/
def alistLookup {β : Type} : List (String × β) → String → Option β
  | [], _ => none
  | (k, v) :: rest, key => if k == key then some v else alistLookup rest key

/-- JS property assignment: replace the value if the key exists, else append. -/
def alistInsert {β : Type} : List (String × β) → String → β → List (String × β)
  | [], key, v => [(key, v)]
  | (k, w) :: rest, key, v =>
    if k == key then (k, v) :: rest else (k, w) :: alistInsert rest key v

/-- JS `delete obj[key]`. -/
def alistErase {β : Type} : List (String × β) → String → List (String × β)
  | [], _ => []
  | (k, v) :: rest, key =>
    if k == key then alistErase rest key else (k, v) :: alistErase rest key

/-- The truthiness test `if (this._pendingTokenRequests[key])`: an absent
entry and an entry set to `null` both fail it. -/
def lookupPending (m : Manager) (key : String) : Option (Except AuthError (Option String)) :=
  match alistLookup m._pendingTokenRequests key with
  | some (some o) => some o
  | _ => none

/-- The cache test of `getTokenForServer`: an entry whose `expires` is present
and strictly later than now yields its (possibly undefined) token. -/
def freshCacheToken (env : Env) (m : Manager) (root : String) : Option (Option String) :=
  match alistLookup m.federatedServers root with
  | some e =>
    match e.expires with
    | some x => if env.now < x then some e.token else none
    | none => none
  | none => none

/-- Result of running a (settled) asynchronous manager operation:
the outcome, the manager state after settlement, and the operations
performed. -/
structure StepResult (α : Type) where
  res : Except AuthError α
  st : Manager
  ops : List Op
deriving Repr

deriving instance DecidableEq for StepResult

/-! ## Constructor / serialization -/

/-- The options record accepted by the constructor. -/
structure ManagerOptions where
  clientId : Option String := none
  refreshToken : Option String := none
  refreshTokenExpires : Option Int := none
  username : Option String := none
  password : Option String := none
  token : Option String := none
  tokenExpires : Option Int := none
  portal : Option String := none
  ssl : Option Bool := none
  provider : Option String := none
  tokenDuration : Option Nat := none
  redirectUri : Option String := none
  server : Option String := none
deriving DecidableEq, Repr

/-- The constructor (source lines 82-110). `none` models the `TypeError`
thrown by `getServerRootUrl` on a malformed `server` option. JS `||`
defaulting makes `0` and `""` fall back to the default. -/
def Manager.create (options : ManagerOptions) : Option Manager :=
  let base : Manager :=
    { clientId := options.clientId
      _refreshToken := options.refreshToken
      _refreshTokenExpires := options.refreshTokenExpires
      _username := options.username
      password := options.password
      _token := options.token
      _tokenExpires := options.tokenExpires
      portal :=
        if truthyS options.portal then
          cleanUrl (options.portal.getD "")
        else "https://www.arcgis.com/sharing/rest"
      ssl := options.ssl
      provider := if truthyS options.provider then options.provider.getD "" else "arcgis"
      tokenDuration :=
        match options.tokenDuration with
        | some d => if d == 0 then 20160 else d
        | none => 20160
      redirectUri := options.redirectUri
      server := options.server
      federatedServers := []
      trustedDomains := []
      _user := none
      _portalInfo := none
      _pendingTokenRequests := [] }
  if truthyS options.server then
    match getServerRootUrl (options.server.getD "") with
    | none => none
    | some root =>
      some { base with
             federatedServers :=
               [(root, { token := options.token, expires := options.tokenExpires })] }
  else some base

/-- The flat record produced by `toJSON` / consumed by `deserialize`. Dates
travel as serialized timestamps; the JSON-string encoding of this flat record
is treated as the identity (for such records
`JSON.parse(JSON.stringify(r)) = r`, with `undefined` fields dropped on both
sides, and a present `Date` serializing to a nonempty ISO string). -/
structure SerializedManager where
  clientId : Option String
  refreshToken : Option String
  refreshTokenExpires : Option Int
  username : Option String
  password : Option String
  token : Option String
  tokenExpires : Option Int
  portal : String
  ssl : Option Bool
  tokenDuration : Nat
  redirectUri : Option String
  server : Option String
deriving DecidableEq, Repr

/-- `toJSON` (source lines 753-768); `serialize()` is `JSON.stringify` of
this record. -/
def Manager.toJSON (m : Manager) : SerializedManager :=
  { clientId := m.clientId
    refreshToken := m.refreshToken
    refreshTokenExpires := m.refreshTokenExpires
    username := m.username
    password := m.password
    token := m.token
    tokenExpires := m.tokenExpires
    portal := m.portal
    ssl := m.ssl
    tokenDuration := m.tokenDuration
    redirectUri := m.redirectUri
    server := m.server }

/-- `deserialize` (source lines 509-529): parse the record and invoke the
constructor. A present serialized date is a nonempty (truthy) ISO string, so
the `options.tokenExpires ? new Date(...) : undefined` guards reduce to
presence tests. -/
def Manager.deserialize (r : SerializedManager) : Option Manager :=
  Manager.create
    { clientId := r.clientId
      refreshToken := r.refreshToken
      refreshTokenExpires := r.refreshTokenExpires
      username := r.username
      password := r.password
      token := r.token
      tokenExpires := r.tokenExpires
      portal := some r.portal
      ssl := r.ssl
      tokenDuration := some r.tokenDuration
      redirectUri := r.redirectUri
      server := r.server }

/-! ## Operations -/

/-- `updateToken` (source lines 1082-1086): sets `_token` and `_tokenExpires`
and returns the (mutated-in-place) instance. -/
def Manager.updateToken (m : Manager) (newToken : String) (newTokenExpiration : Int) : Manager :=
  { m with _token := some newToken, _tokenExpires := some newTokenExpiration }

/-- `getDomainCredentials` (source lines 836-845). -/
def Manager.getDomainCredentials (m : Manager) (url : String) : String :=
  if m.trustedDomains.isEmpty then "same-origin"
  else if m.trustedDomains.any (fun d => url.startsWith d) then "include"
  else "same-origin"

/-- `getPortal` (source lines 686-703), in the sequential model: a cached
`_portalInfo` is returned without a network call, otherwise `/portals/self`
is fetched and cached. (`_pendingPortalRequest` de-duplication collapses in
a sequential run.) -/
def getPortalStep (env : Env) (m : Manager) : StepResult PortalInfo :=
  match m._portalInfo with
  | some pi => ⟨.ok pi, m, []⟩
  | none =>
    let url := m.portal ++ "/portals/self"
    match env.tp.portalSelf url with
    | .ok pi => ⟨.ok pi, { m with _portalInfo := some pi }, [.net (.portalSelf url)]⟩
    | .error e => ⟨.error (.transportErr e.message), m, [.net (.portalSelf url)]⟩

/-- `fetchAuthorizedDomains` (source lines 1116-1142): a no-op for a
server-scoped or portal-less manager, otherwise populates `trustedDomains`
from the portal self-info, dropping `http://` entries and normalizing the
rest to `https://` origins. -/
def fetchAuthorizedDomains (env : Env) (m : Manager) : StepResult Unit :=
  if truthyS m.server || m.portal == "" then ⟨.ok (), m, []⟩
  else
    let r := getPortalStep env m
    match r.res with
    | .error e => ⟨.error e, r.st, r.ops⟩
    | .ok pi =>
      if pi.authorizedCrossOriginDomains.length != 0 then
        ⟨.ok (),
         { r.st with
           trustedDomains :=
             (pi.authorizedCrossOriginDomains.filter
               (fun d => !(d.startsWith "http://"))).map
               (fun d => if d.startsWith "https://" then d else "https://" ++ d) },
         r.ops⟩
      else ⟨.ok (), r.st, r.ops⟩

/-- `generateTokenForServer` (source lines 981-998): request a token from
`tokenServicesUrl` with `{token: this.token, serverUrl, expiration:
this.tokenDuration}`; on success subtract the 5-minute margin
(`1000 * 60 * 5` ms) from the reported expiry; wrap any transport failure as
GENERATE_TOKEN_FOR_SERVER_FAILED. -/
def generateTokenForServer (env : Env) (m : Manager) (tokenServicesUrl serverUrl : String) :
    StepResult TokenEntry :=
  let params : GenTokenParams :=
    { token := m.token, serverUrl := serverUrl, expiration := m.tokenDuration }
  match env.tp.generateTokenSrv params tokenServicesUrl with
  | .ok r =>
    ⟨.ok { token := some r.token, expires := some (r.expires - 1000 * 60 * 5) }, m,
     [.net (.generateToken tokenServicesUrl)]⟩
  | .error e =>
    ⟨.error (.tokenRequest .GENERATE_TOKEN_FOR_SERVER_FAILED e.message), m,
     [.net (.generateToken tokenServicesUrl)]⟩

/-- `refreshWithUsernameAndPassword` (source lines 1023-1049): a server-scoped
manager first resolves its server's token-services URL via `/rest/info`;
otherwise the portal's `/generateToken` endpoint is used directly. On success
`updateToken`; the trailing `.catch` wraps any rejection as
TOKEN_REFRESH_FAILED. A synchronous `getServerRootUrl` throw escapes
unwrapped. -/
def refreshWithUsernameAndPassword (env : Env) (m : Manager) : StepResult Unit :=
  let params : UPParams :=
    { username := m.username, password := m.password, expiration := m.tokenDuration }
  if truthyS m.server then
    match getServerRootUrl (m.server.getD "") with
    | none => ⟨.error .typeErr, m, []⟩
    | some root =>
      let infoUrl := root ++ "/rest/info"
      match env.tp.restInfo infoUrl with
      | .error e =>
        ⟨.error (.tokenRequest .TOKEN_REFRESH_FAILED e.message), m, [.net (.restInfo infoUrl)]⟩
      | .ok info =>
        match info.authInfo with
        | none =>
          ⟨.error (.tokenRequest .TOKEN_REFRESH_FAILED "cannot read tokenServicesUrl of undefined"),
           m, [.net (.restInfo infoUrl)]⟩
        | some ai =>
          match env.tp.generateTokenUP ai.tokenServicesUrl params with
          | .ok r =>
            ⟨.ok (), m.updateToken r.token r.expires,
             [.net (.restInfo infoUrl), .net (.generateToken ai.tokenServicesUrl)]⟩
          | .error e =>
            ⟨.error (.tokenRequest .TOKEN_REFRESH_FAILED e.message), m,
             [.net (.restInfo infoUrl), .net (.generateToken ai.tokenServicesUrl)]⟩
  else
    let url := m.portal ++ "/generateToken"
    match env.tp.generateTokenUP url params with
    | .ok r => ⟨.ok (), m.updateToken r.token r.expires, [.net (.generateToken url)]⟩
    | .error e =>
      ⟨.error (.tokenRequest .TOKEN_REFRESH_FAILED e.message), m, [.net (.generateToken url)]⟩

/-- `exchangeRefreshToken` (source lines 1091-1109): the
`exchange_refresh_token` grant; on success replaces token, tokenExpires,
refreshToken and refreshTokenExpires together; failures wrap as
REFRESH_TOKEN_EXCHANGE_FAILED. -/
def exchangeRefreshToken (env : Env) (m : Manager) : StepResult Unit :=
  let url := m.portal ++ "/oauth2/token"
  match env.tp.oauthToken url "exchange_refresh_token" with
  | .ok r =>
    ⟨.ok (),
     { m with
       _token := some r.token
       _tokenExpires := some r.expires
       _refreshToken := r.refreshToken
       _refreshTokenExpires := r.refreshTokenExpires },
     [.net (.oauthToken url "exchange_refresh_token")]⟩
  | .error e =>
    ⟨.error (.tokenRequest .REFRESH_TOKEN_EXCHANGE_FAILED e.message), m,
     [.net (.oauthToken url "exchange_refresh_token")]⟩

/-- `refreshWithRefreshToken` (source lines 1053-1073): if the refresh token
is present and expires within `1000 * 60 * 60 * 24` ms of now, delegate to
`exchangeRefreshToken`; otherwise perform the plain `refresh_token` grant and
`updateToken`; failures wrap as TOKEN_REFRESH_FAILED. -/
def refreshWithRefreshToken (env : Env) (m : Manager) : StepResult Unit :=
  let rotate : Bool :=
    truthyS m.refreshToken &&
      (match m.refreshTokenExpires with
       | some re => decide (re - 1000 * 60 * 60 * 24 < env.now)
       | none => false)
  if rotate then exchangeRefreshToken env m
  else
    let url := m.portal ++ "/oauth2/token"
    match env.tp.oauthToken url "refresh_token" with
    | .ok r => ⟨.ok (), m.updateToken r.token r.expires, [.net (.oauthToken url "refresh_token")]⟩
    | .error e =>
      ⟨.error (.tokenRequest .TOKEN_REFRESH_FAILED e.message), m,
       [.net (.oauthToken url "refresh_token")]⟩

/-- `refreshCredentials` (source lines 804-814): clear the cached user
snapshot, then dispatch on the available credential material; with neither
pair present, reject with TOKEN_REFRESH_FAILED without any network call.
The leading `Op.refreshCall` marks the invocation itself. -/
def refreshCredentials (env : Env) (m : Manager) : StepResult Unit :=
  let m0 := { m with _user := none }
  let r : StepResult Unit :=
    if truthyS m0.username && truthyS m0.password then
      refreshWithUsernameAndPassword env m0
    else if truthyS m0.clientId && truthyS m0.refreshToken then
      refreshWithRefreshToken env m0
    else
      ⟨.error (.tokenRequest .TOKEN_REFRESH_FAILED
         "Unable to refresh token. No refresh token or password present."), m0, []⟩
  ⟨r.res, r.st, .refreshCall :: r.ops⟩

/-- `getFreshToken` (source lines 1002-1018). A token with no expiry, or an
expiry still in the future, resolves immediately. Otherwise the pending
operation for the portal key is joined if it passes the truthiness test; else
a refresh is started: on resolution the entry is set to `null`, on rejection
the stored (settled) operation remains in the map. -/
def getFreshToken (env : Env) (m : Manager) : StepResult (Option String) :=
  if truthyS m.token && m.tokenExpires.isNone then ⟨.ok m.token, m, []⟩
  else if truthyS m.token &&
      (match m.tokenExpires with
       | some e => decide (e > env.now)
       | none => false) then ⟨.ok m.token, m, []⟩
  else
    match lookupPending m m.portal with
    | some outcome => ⟨outcome, m, []⟩
    | none =>
      let r := refreshCredentials env m
      match r.res with
      | .ok _ =>
        ⟨.ok r.st.token,
         { r.st with
           _pendingTokenRequests := alistInsert r.st._pendingTokenRequests m.portal none },
         r.ops⟩
      | .error e =>
        ⟨.error e,
         { r.st with
           _pendingTokenRequests :=
             alistInsert r.st._pendingTokenRequests m.portal (some (.error e)) },
         r.ops⟩

/-- The promise chain that `getTokenForServer` stores into
`_pendingTokenRequests[root]` (source lines 914-969, up to but excluding the
final handler that writes the caches): ensure trusted domains, fetch
`{root}/rest/info`, resolve federation (NOT_FEDERATED on an unrecognized
`owningSystemUrl`, or on a server neither federated nor pre-registered),
refresh expired home credentials if needed, and generate the server token. -/
def serverTokenChain (env : Env) (m : Manager) (url root : String) : StepResult TokenEntry :=
  let r1 := fetchAuthorizedDomains env m
  match r1.res with
  | .error e => ⟨.error e, r1.st, r1.ops⟩
  | .ok _ =>
    let m1 := r1.st
    let infoUrl := root ++ "/rest/info"
    let opsInfo := r1.ops ++ [.net (.restInfo infoUrl)]
    match env.tp.restInfo infoUrl with
    | .error e => ⟨.error (.transportErr e.message), m1, opsInfo⟩
    | .ok serverInfo =>
      let step2 : StepResult ServerInfo :=
        match serverInfo.owningSystemUrl with
        | some owner =>
          if !(env.isFederatedCheck owner m1.portal) then
            ⟨.error (.tokenRequest .NOT_FEDERATED
               (url ++ " is not federated with " ++ m1.portal ++ ".")), m1, opsInfo⟩
          else
            let shUrl := owner ++ "/sharing/rest/info"
            match env.tp.sharingRestInfo shUrl with
            | .ok si2 => ⟨.ok si2, m1, opsInfo ++ [.net (.sharingRestInfo shUrl)]⟩
            | .error e => ⟨.error (.transportErr e.message), m1, opsInfo ++ [.net (.sharingRestInfo shUrl)]⟩
        | none =>
          match serverInfo.authInfo with
          | some ai =>
            if (alistLookup m1.federatedServers root).isSome then
              ⟨.ok { owningSystemUrl := none, authInfo := some ai }, m1, opsInfo⟩
            else
              ⟨.error (.tokenRequest .NOT_FEDERATED
                 (url ++ " is not federated with any portal and is not explicitly trusted.")),
               m1, opsInfo⟩
          | none =>
            ⟨.error (.tokenRequest .NOT_FEDERATED
               (url ++ " is not federated with any portal and is not explicitly trusted.")),
             m1, opsInfo⟩
      match step2.res with
      | .error e => ⟨.error e, step2.st, step2.ops⟩
      | .ok si2 =>
        let m2 := step2.st
        let genDirect : Manager → List Op → StepResult TokenEntry := fun mg acc =>
          match si2.authInfo with
          | none => ⟨.error .typeErr, mg, acc⟩
          | some ai =>
            let r4 := generateTokenForServer env mg ai.tokenServicesUrl root
            ⟨r4.res, r4.st, acc ++ r4.ops⟩
        if truthyS m2.token then
          match m2.tokenExpires with
          | none => ⟨.error .typeErr, m2, step2.ops⟩
          | some te =>
            if te < env.now then
              if truthyS m2.server then
                let r3 := refreshCredentials env m2
                match r3.res with
                | .error e => ⟨.error e, r3.st, step2.ops ++ r3.ops⟩
                | .ok _ =>
                  ⟨.ok { token := r3.st.token, expires := r3.st.tokenExpires }, r3.st,
                   step2.ops ++ r3.ops⟩
              else
                let r3 := refreshCredentials env m2
                match r3.res with
                | .error e => ⟨.error e, r3.st, step2.ops ++ r3.ops⟩
                | .ok _ => genDirect r3.st (step2.ops ++ r3.ops)
            else genDirect m2 step2.ops
        else genDirect m2 step2.ops

/-- `getTokenForServer` (source lines 901-977). `none` models the synchronous
`TypeError` from `getServerRootUrl` on a URL with no protocol. A fresh cache
entry resolves immediately; a pending operation passing the truthiness test is
returned as-is; otherwise the chain runs: its final success handler writes
`federatedServers[root]` and deletes the pending entry, while a rejection
leaves the settled (rejected) operation in the pending map. -/
def getTokenForServer (env : Env) (m : Manager) (url : String) :
    Option (StepResult (Option String)) :=
  match getServerRootUrl url with
  | none => none
  | some root =>
    match freshCacheToken env m root with
    | some tk => some ⟨.ok tk, m, []⟩
    | none =>
      match lookupPending m root with
      | some outcome => some ⟨outcome, m, []⟩
      | none =>
        let r := serverTokenChain env m url root
        match r.res with
        | .ok entry =>
          some ⟨.ok entry.token,
                { r.st with
                  federatedServers := alistInsert r.st.federatedServers root entry
                  _pendingTokenRequests := alistErase r.st._pendingTokenRequests root },
                r.ops⟩
        | .error e =>
          some ⟨.error e,
                { r.st with
                  _pendingTokenRequests :=
                    alistInsert r.st._pendingTokenRequests root (some (.error e)) },
                r.ops⟩


/-! ## Concrete fixtures (used by counterexamples and witnesses) -/

/-- A transport whose every request fails. -/
def tpDown : Transport :=
  { restInfo := fun _ => .error ⟨"network down"⟩
    sharingRestInfo := fun _ => .error ⟨"network down"⟩
    generateTokenSrv := fun _ _ => .error ⟨"network down"⟩
    generateTokenUP := fun _ _ => .error ⟨"network down"⟩
    oauthToken := fun _ _ => .error ⟨"network down"⟩
    portalSelf := fun _ => .error ⟨"network down"⟩ }

/-- A transport with fixed successful responses. -/
def tpStub : Transport :=
  { restInfo := fun _ => .ok { owningSystemUrl := some "https://owning.portal.example", authInfo := none }
    sharingRestInfo := fun _ =>
      .ok { owningSystemUrl := none, authInfo := some { tokenServicesUrl := "https://ts.example" } }
    generateTokenSrv := fun _ _ => .ok { token := "srvtok", expires := 1000000 }
    generateTokenUP := fun _ _ => .ok { token := "uptok", expires := 2000000 }
    oauthToken := fun _ _ =>
      .ok { token := "rtok", expires := 3000000, refreshToken := some "newref",
            refreshTokenExpires := some 4000000 }
    portalSelf := fun _ => .ok { authorizedCrossOriginDomains := [] } }

def envDown : Env := { now := 1000, tp := tpDown, isFederatedCheck := fun _ _ => false }

def envStub : Env := { now := 1000, tp := tpStub, isFederatedCheck := fun _ _ => false }

/-- A manager with no credential material at all (default portal). -/
def mgrBase : Manager :=
  { clientId := none, _refreshToken := none, _refreshTokenExpires := none,
    _username := none, password := none, _token := none, _tokenExpires := none,
    portal := "https://www.arcgis.com/sharing/rest", ssl := none, provider := "arcgis",
    tokenDuration := 20160, redirectUri := none, server := none,
    federatedServers := [], trustedDomains := [], _user := none, _portalInfo := none,
    _pendingTokenRequests := [] }

/-- A server-scoped manager with a token. -/
def mgrSrv : Manager :=
  { mgrBase with server := some "https://srv.example.com/arcgis",
                 _token := some "tok", _tokenExpires := some 99 }

/-! ## Helper lemmas -/

/-- Classifier for the refresh-invocation marker. -/
def isRefreshOp : Op → Bool
  | .refreshCall => true
  | .net _ => false

/-- Classifier for network calls. -/
def isNetOp : Op → Bool
  | .net _ => true
  | .refreshCall => false

/-- The fields of the manager that the token-refresh paths never touch. -/
def cacheFieldsEq (a b : Manager) : Prop :=
  a.federatedServers = b.federatedServers ∧
  a._pendingTokenRequests = b._pendingTokenRequests ∧
  a.portal = b.portal ∧ a.server = b.server

example : getServerRootUrl "https://Foo.Com/arcgis/rest/services/X/FeatureServer" =
    some "https://foo.com/arcgis" := by decide

example : getServerRootUrl "https://machine.domain.com/webadaptor/rest/admin/services/stuff" =
    some "https://machine.domain.com/webadaptor" := by decide

example : getServerRootUrl "https://host.com/rest/services/x" = some "https://host.com/" := by
  decide

example : getServerRootUrl "nonsense" = none := by decide

theorem cacheFieldsEq_refl (a : Manager) : cacheFieldsEq a a := ⟨rfl, rfl, rfl, rfl⟩

theorem cacheFieldsEq_trans {a b c : Manager} (h1 : cacheFieldsEq a b) (h2 : cacheFieldsEq b c) :
    cacheFieldsEq a c :=
  ⟨h1.1.trans h2.1, h1.2.1.trans h2.2.1, h1.2.2.1.trans h2.2.2.1, h1.2.2.2.trans h2.2.2.2⟩

theorem getPortalStep_cacheEq (env : Env) (m : Manager) :
    cacheFieldsEq (getPortalStep env m).st m := by
  unfold getPortalStep
  dsimp only
  repeat' split
  all_goals exact ⟨rfl, rfl, rfl, rfl⟩

theorem fetchAuthorizedDomains_cacheEq (env : Env) (m : Manager) :
    cacheFieldsEq (fetchAuthorizedDomains env m).st m := by
  unfold fetchAuthorizedDomains getPortalStep
  dsimp only
  repeat' split
  all_goals exact ⟨rfl, rfl, rfl, rfl⟩

theorem refreshWithUsernameAndPassword_cacheEq (env : Env) (m : Manager) :
    cacheFieldsEq (refreshWithUsernameAndPassword env m).st m := by
  unfold refreshWithUsernameAndPassword Manager.updateToken
  dsimp only
  repeat' split
  all_goals exact ⟨rfl, rfl, rfl, rfl⟩

theorem exchangeRefreshToken_cacheEq (env : Env) (m : Manager) :
    cacheFieldsEq (exchangeRefreshToken env m).st m := by
  unfold exchangeRefreshToken
  dsimp only
  repeat' split
  all_goals exact ⟨rfl, rfl, rfl, rfl⟩

theorem refreshWithRefreshToken_cacheEq (env : Env) (m : Manager) :
    cacheFieldsEq (refreshWithRefreshToken env m).st m := by
  unfold refreshWithRefreshToken exchangeRefreshToken Manager.updateToken
  dsimp only
  repeat' split
  all_goals exact ⟨rfl, rfl, rfl, rfl⟩

theorem refreshCredentials_cacheEq (env : Env) (m : Manager) :
    cacheFieldsEq (refreshCredentials env m).st m := by
  unfold refreshCredentials refreshWithUsernameAndPassword refreshWithRefreshToken
    exchangeRefreshToken Manager.updateToken
  dsimp only
  repeat' split
  all_goals exact ⟨rfl, rfl, rfl, rfl⟩

theorem refreshWithUsernameAndPassword_error_st (env : Env) (m : Manager) (err : AuthError)
    (h : (refreshWithUsernameAndPassword env m).res = .error err) :
    (refreshWithUsernameAndPassword env m).st = m := by
  unfold refreshWithUsernameAndPassword at h ⊢
  dsimp only at h ⊢
  repeat' split at h
  all_goals repeat' split
  all_goals first | rfl | simp_all

theorem exchangeRefreshToken_error_st (env : Env) (m : Manager) (err : AuthError)
    (h : (exchangeRefreshToken env m).res = .error err) :
    (exchangeRefreshToken env m).st = m := by
  unfold exchangeRefreshToken at h ⊢
  dsimp only at h ⊢
  repeat' split at h
  all_goals first | rfl | simp_all

theorem refreshWithRefreshToken_error_st (env : Env) (m : Manager) (err : AuthError)
    (h : (refreshWithRefreshToken env m).res = .error err) :
    (refreshWithRefreshToken env m).st = m := by
  unfold refreshWithRefreshToken exchangeRefreshToken at h ⊢
  dsimp only at h ⊢
  repeat' split at h
  all_goals repeat' split
  all_goals first | rfl | simp_all

theorem refreshCredentials_error_st (env : Env) (m : Manager) (err : AuthError)
    (h : (refreshCredentials env m).res = .error err) :
    (refreshCredentials env m).st = { m with _user := none } := by
  unfold refreshCredentials at h ⊢
  dsimp only at h ⊢
  split at h
  case isTrue hc =>
    rw [if_pos hc]
    exact refreshWithUsernameAndPassword_error_st env _ err h
  case isFalse hc =>
    rw [if_neg hc]
    split at h
    case isTrue hc2 =>
      rw [if_pos hc2]
      exact refreshWithRefreshToken_error_st env _ err h
    case isFalse hc2 =>
      rw [if_neg hc2]

theorem refreshWithUsernameAndPassword_refreshOps (env : Env) (m : Manager) :
    ((refreshWithUsernameAndPassword env m).ops.countP isRefreshOp) = 0 := by
  unfold refreshWithUsernameAndPassword
  dsimp only
  repeat' split
  all_goals simp [List.countP_cons, isRefreshOp]

theorem exchangeRefreshToken_refreshOps (env : Env) (m : Manager) :
    ((exchangeRefreshToken env m).ops.countP isRefreshOp) = 0 := by
  unfold exchangeRefreshToken
  dsimp only
  repeat' split
  all_goals simp [List.countP_cons, isRefreshOp]

theorem refreshWithRefreshToken_refreshOps (env : Env) (m : Manager) :
    ((refreshWithRefreshToken env m).ops.countP isRefreshOp) = 0 := by
  unfold refreshWithRefreshToken exchangeRefreshToken
  dsimp only
  repeat' split
  all_goals simp [List.countP_cons, isRefreshOp]

theorem refreshCredentials_refreshOps (env : Env) (m : Manager) :
    ((refreshCredentials env m).ops.countP isRefreshOp) = 1 := by
  unfold refreshCredentials
  dsimp only
  rw [List.countP_cons]
  split
  · simp [isRefreshOp, refreshWithUsernameAndPassword_refreshOps]
  · split
    · simp [isRefreshOp, refreshWithRefreshToken_refreshOps]
    · simp [isRefreshOp]

theorem username_userClear (m : Manager) :
    Manager.username { m with _user := none } = m._username := by
  unfold Manager.username
  cases m._username <;> rfl

/-! ## Claim theorems -/

/-- C10: for every manager and every pair `(newToken, newTokenExpiration)`,
`updateToken` sets exactly `_token` and `_tokenExpires` to the given values
and leaves every other field unchanged (it mutates the instance in place and
returns it, so the result is the whole updated record). -/
theorem C10_updateToken_frame (m : Manager) (newToken : String) (newTokenExpiration : Int) :
    (m.updateToken newToken newTokenExpiration)._token = some newToken ∧
    (m.updateToken newToken newTokenExpiration)._tokenExpires = some newTokenExpiration ∧
    (m.updateToken newToken newTokenExpiration).clientId = m.clientId ∧
    (m.updateToken newToken newTokenExpiration)._refreshToken = m._refreshToken ∧
    (m.updateToken newToken newTokenExpiration)._refreshTokenExpires = m._refreshTokenExpires ∧
    (m.updateToken newToken newTokenExpiration)._username = m._username ∧
    (m.updateToken newToken newTokenExpiration).password = m.password ∧
    (m.updateToken newToken newTokenExpiration).portal = m.portal ∧
    (m.updateToken newToken newTokenExpiration).ssl = m.ssl ∧
    (m.updateToken newToken newTokenExpiration).provider = m.provider ∧
    (m.updateToken newToken newTokenExpiration).tokenDuration = m.tokenDuration ∧
    (m.updateToken newToken newTokenExpiration).redirectUri = m.redirectUri ∧
    (m.updateToken newToken newTokenExpiration).server = m.server ∧
    (m.updateToken newToken newTokenExpiration).federatedServers = m.federatedServers ∧
    (m.updateToken newToken newTokenExpiration).trustedDomains = m.trustedDomains ∧
    (m.updateToken newToken newTokenExpiration)._user = m._user ∧
    (m.updateToken newToken newTokenExpiration)._portalInfo = m._portalInfo ∧
    (m.updateToken newToken newTokenExpiration)._pendingTokenRequests = m._pendingTokenRequests :=
  ⟨rfl, rfl, rfl, rfl, rfl, rfl, rfl, rfl, rfl, rfl, rfl, rfl, rfl, rfl, rfl, rfl, rfl, rfl⟩

/-- C5: a successful `generateTokenForServer` with a transport-reported
expiry `T` stores expiry exactly `T - 300000` ms (the 5-minute margin), and
any transport failure of this call rejects with code
GENERATE_TOKEN_FOR_SERVER_FAILED. -/
theorem C5_generateTokenForServer_spec (env : Env) (m : Manager)
    (tokenServicesUrl serverUrl : String) :
    (∀ r : GenTokenResponse,
       env.tp.generateTokenSrv
         { token := m.token, serverUrl := serverUrl, expiration := m.tokenDuration }
         tokenServicesUrl = .ok r →
       generateTokenForServer env m tokenServicesUrl serverUrl =
         ⟨.ok { token := some r.token, expires := some (r.expires - 300000) }, m,
          [.net (.generateToken tokenServicesUrl)]⟩) ∧
    (∀ e : TransportError,
       env.tp.generateTokenSrv
         { token := m.token, serverUrl := serverUrl, expiration := m.tokenDuration }
         tokenServicesUrl = .error e →
       generateTokenForServer env m tokenServicesUrl serverUrl =
         ⟨.error (.tokenRequest .GENERATE_TOKEN_FOR_SERVER_FAILED e.message), m,
          [.net (.generateToken tokenServicesUrl)]⟩) := by
  constructor
  · intro r h
    unfold generateTokenForServer
    dsimp only
    rw [h]
    norm_num
  · intro e h
    unfold generateTokenForServer
    dsimp only
    rw [h]

/-- C9: `refreshCredentials` clears the cached user snapshot first; with
neither a username/password pair nor a clientId/refreshToken pair it rejects
with TOKEN_REFRESH_FAILED performing no network call (its trace is just the
refresh marker); otherwise it dispatches to exactly one of
`refreshWithUsernameAndPassword` or `refreshWithRefreshToken` on the
user-cleared state. -/
theorem C9_refreshCredentials_spec (env : Env) (m : Manager) :
    ((truthyS m._username && truthyS m.password) = false →
     (truthyS m.clientId && truthyS m._refreshToken) = false →
     refreshCredentials env m =
       ⟨.error (.tokenRequest .TOKEN_REFRESH_FAILED
          "Unable to refresh token. No refresh token or password present."),
        { m with _user := none }, [.refreshCall]⟩) ∧
    ((truthyS m._username && truthyS m.password) = true →
     refreshCredentials env m =
       ⟨(refreshWithUsernameAndPassword env { m with _user := none }).res,
        (refreshWithUsernameAndPassword env { m with _user := none }).st,
        .refreshCall :: (refreshWithUsernameAndPassword env { m with _user := none }).ops⟩) ∧
    ((truthyS m._username && truthyS m.password) = false →
     (truthyS m.clientId && truthyS m._refreshToken) = true →
     refreshCredentials env m =
       ⟨(refreshWithRefreshToken env { m with _user := none }).res,
        (refreshWithRefreshToken env { m with _user := none }).st,
        .refreshCall :: (refreshWithRefreshToken env { m with _user := none }).ops⟩) := by
  refine ⟨?_, ?_, ?_⟩
  · intro h1 h2
    simp only [refreshCredentials, username_userClear, Manager.refreshToken, h1, h2]
    rfl
  · intro h1
    simp only [refreshCredentials, username_userClear, Manager.refreshToken, h1]
    simp
  · intro h1 h2
    simp only [refreshCredentials, username_userClear, Manager.refreshToken, h1, h2]
    simp

/-- C8: with a refresh token whose expiry is within 24 hours of now
(`refreshTokenExpires - 86400000 < now`), `refreshWithRefreshToken`
delegates to `exchangeRefreshToken`; otherwise it performs the plain OAuth
`refresh_token` grant against `{portal}/oauth2/token` and updates exactly
`token`/`tokenExpires` via `updateToken`. -/
theorem C8_refreshWithRefreshToken_spec (env : Env) (m : Manager) :
    (∀ re : Int, truthyS m.refreshToken = true → m.refreshTokenExpires = some re →
       re - 86400000 < env.now →
       refreshWithRefreshToken env m = exchangeRefreshToken env m) ∧
    ((truthyS m.refreshToken = false ∨ m.refreshTokenExpires = none ∨
        (∀ re : Int, m.refreshTokenExpires = some re → env.now ≤ re - 86400000)) →
     ∀ r : FetchTokenResponse,
       env.tp.oauthToken (m.portal ++ "/oauth2/token") "refresh_token" = .ok r →
       refreshWithRefreshToken env m =
         ⟨.ok (), m.updateToken r.token r.expires,
          [.net (.oauthToken (m.portal ++ "/oauth2/token") "refresh_token")]⟩) := by
  constructor
  · intro re h1 h2 h3
    unfold refreshWithRefreshToken
    dsimp only
    rw [h1, h2]
    have hd : decide (re - 1000 * 60 * 60 * 24 < env.now) = true := by
      simp only [decide_eq_true_eq]
      linarith
    show (if (true && decide (re - 1000 * 60 * 60 * 24 < env.now)) = true then _ else _) = _
    rw [hd]
    rfl
  · intro hcond r hr
    unfold refreshWithRefreshToken
    dsimp only
    have hrot : (truthyS m.refreshToken &&
        (match m.refreshTokenExpires with
         | some re => decide (re - 1000 * 60 * 60 * 24 < env.now)
         | none => false)) = false := by
      rcases hcond with h | h | h
      · rw [h, Bool.false_and]
      · rw [h]
        show (truthyS m.refreshToken && false) = false
        rw [Bool.and_false]
      · cases hre : m.refreshTokenExpires with
        | none =>
          show (truthyS m.refreshToken && false) = false
          rw [Bool.and_false]
        | some re =>
          have h2 := h re hre
          have hd : decide (re - 1000 * 60 * 60 * 24 < env.now) = false := by
            simp only [decide_eq_false_iff_not, not_lt]
            linarith
          show (truthyS m.refreshToken && decide (re - 1000 * 60 * 60 * 24 < env.now)) = false
          rw [hd, Bool.and_false]
    rw [hrot]
    rw [if_neg Bool.false_ne_true]
    rw [hr]

/-- C6: with a present token and no expiry, or an expiry strictly in the
future, `getFreshToken` resolves to that token immediately with no
operations at all; with an expiry at or before now (and no pending
operation for the portal) it performs exactly one `refreshCredentials`
invocation, and any resolved value is the manager's updated token. -/
theorem C6_getFreshToken_spec (env : Env) (m : Manager) :
    (truthyS m.token = true → m.tokenExpires = none →
       getFreshToken env m = ⟨.ok m.token, m, []⟩) ∧
    (∀ e : Int, truthyS m.token = true → m.tokenExpires = some e → env.now < e →
       getFreshToken env m = ⟨.ok m.token, m, []⟩) ∧
    (∀ e : Int, m.tokenExpires = some e → e ≤ env.now → lookupPending m m.portal = none →
       ((getFreshToken env m).ops.countP isRefreshOp) = 1 ∧
       (∀ tk, (getFreshToken env m).res = .ok tk → tk = (getFreshToken env m).st.token)) := by
  refine ⟨?_, ?_, ?_⟩
  · intro h1 h2
    unfold getFreshToken
    rw [h1, h2]
    rfl
  · intro e h1 h2 h3
    unfold getFreshToken
    rw [h1, h2]
    have hd : decide (e > env.now) = true := by
      simp only [decide_eq_true_eq]
      exact h3
    show (if (true && Option.isNone (some e)) = true then _
          else if (true && decide (e > env.now)) = true then _ else _) = _
    rw [hd]
    rfl
  · intro e h1 h2 h3
    have hgf : getFreshToken env m =
        (match (refreshCredentials env m).res with
         | .ok _ =>
           (⟨.ok (refreshCredentials env m).st.token,
             { (refreshCredentials env m).st with
               _pendingTokenRequests :=
                 alistInsert (refreshCredentials env m).st._pendingTokenRequests m.portal none },
             (refreshCredentials env m).ops⟩ : StepResult (Option String))
         | .error err =>
           ⟨.error err,
            { (refreshCredentials env m).st with
              _pendingTokenRequests :=
                alistInsert (refreshCredentials env m).st._pendingTokenRequests m.portal
                  (some (.error err)) },
            (refreshCredentials env m).ops⟩) := by
      unfold getFreshToken
      rw [h1]
      have hd : decide (e > env.now) = false := by
        simp only [decide_eq_false_iff_not, not_lt]
        exact h2
      show (if (truthyS m.token && Option.isNone (some e)) = true then _
            else if (truthyS m.token && decide (e > env.now)) = true then _ else _) = _
      rw [hd]
      simp only [Option.isNone_some, Bool.and_false]
      rw [if_neg Bool.false_ne_true, if_neg Bool.false_ne_true]
      rw [h3]
    constructor
    · rw [hgf]
      split <;> exact refreshCredentials_refreshOps env m
    · intro tk htk
      rw [hgf] at htk ⊢
      cases hres : (refreshCredentials env m).res with
      | ok u =>
        rw [hres] at htk
        dsimp only at htk
        injection htk with h
        subst h
        rfl
      | error err =>
        rw [hres] at htk
        dsimp only at htk
        simp at htk

/-- C2: a call that finds an operation stored under its key joins it: with a
pending entry for the normalized root (and no fresh cache hit),
`getTokenForServer` returns exactly that operation's outcome, changes no
state and issues no network request; `getFreshToken` does the same for the
portal key when the home token is stale. All callers arriving in this
situation therefore share one operation and observe its single resolved or
rejected outcome. -/
theorem C2_pendingDedup_spec (env : Env) (m : Manager) (url root : String)
    (o : Except AuthError (Option String)) :
    (getServerRootUrl url = some root → freshCacheToken env m root = none →
     lookupPending m root = some o →
     getTokenForServer env m url = some ⟨o, m, []⟩) ∧
    (∀ e : Int, m.tokenExpires = some e → e ≤ env.now →
     lookupPending m m.portal = some o →
     getFreshToken env m = ⟨o, m, []⟩) := by
  constructor
  · intro hroot hcache hpend
    unfold getTokenForServer
    rw [hroot]
    dsimp only
    rw [hcache]
    dsimp only
    rw [hpend]
  · intro e h1 h2 h3
    unfold getFreshToken
    rw [h1]
    have hd : decide (e > env.now) = false := by
      simp only [decide_eq_false_iff_not, not_lt]
      exact h2
    show (if (truthyS m.token && Option.isNone (some e)) = true then _
          else if (truthyS m.token && decide (e > env.now)) = true then _ else _) = _
    rw [hd]
    simp only [Option.isNone_some, Bool.and_false]
    rw [if_neg Bool.false_ne_true, if_neg Bool.false_ne_true]
    rw [h3]

theorem alistLookup_insert {β : Type} (l : List (String × β)) (key : String) (v : β) :
    alistLookup (alistInsert l key v) key = some v := by
  induction l with
  | nil => simp [alistInsert, alistLookup]
  | cons hd tl ih =>
    obtain ⟨k, w⟩ := hd
    unfold alistInsert
    by_cases hk : (k == key) = true
    · rw [if_pos hk]
      unfold alistLookup
      rw [if_pos hk]
    · rw [if_neg hk]
      unfold alistLookup
      rw [if_neg hk]
      exact ih

theorem alistLookup_erase {β : Type} (l : List (String × β)) (key : String) :
    alistLookup (alistErase l key) key = none := by
  induction l with
  | nil => simp [alistErase, alistLookup]
  | cons hd tl ih =>
    obtain ⟨k, w⟩ := hd
    unfold alistErase
    by_cases hk : (k == key) = true
    · rw [if_pos hk]
      exact ih
    · rw [if_neg hk]
      unfold alistLookup
      rw [if_neg hk]
      exact ih

theorem freshCacheToken_congr (env : Env) {a b : Manager} (root : String)
    (h : a.federatedServers = b.federatedServers) :
    freshCacheToken env a root = freshCacheToken env b root := by
  unfold freshCacheToken
  rw [h]

theorem generateTokenForServer_st (env : Env) (m : Manager) (u s : String) :
    (generateTokenForServer env m u s).st = m := by
  unfold generateTokenForServer
  dsimp only
  split <;> rfl

theorem serverTokenChain_cacheEq (env : Env) (m : Manager) (url root : String) :
    cacheFieldsEq (serverTokenChain env m url root).st m := by
  unfold serverTokenChain
  dsimp only
  repeat' split
  all_goals dsimp only
  all_goals try rw [generateTokenForServer_st]
  all_goals first
    | exact fetchAuthorizedDomains_cacheEq env m
    | exact cacheFieldsEq_trans (refreshCredentials_cacheEq env _)
        (fetchAuthorizedDomains_cacheEq env m)

theorem getFreshToken_pending_hit (env : Env) (m : Manager) (e : Int)
    (o : Except AuthError (Option String))
    (h1 : m.tokenExpires = some e) (h2 : e ≤ env.now)
    (h3 : lookupPending m m.portal = some o) :
    getFreshToken env m = ⟨o, m, []⟩ := by
  unfold getFreshToken
  rw [h1]
  have hd : decide (e > env.now) = false := by
    simp only [decide_eq_false_iff_not, not_lt]
    exact h2
  show (if (truthyS m.token && Option.isNone (some e)) = true then _
        else if (truthyS m.token && decide (e > env.now)) = true then _ else _) = _
  rw [hd]
  simp only [Option.isNone_some, Bool.and_false]
  rw [if_neg Bool.false_ne_true, if_neg Bool.false_ne_true]
  rw [h3]

theorem getTokenForServer_pending_hit (env : Env) (m : Manager) (url root : String)
    (o : Except AuthError (Option String))
    (hroot : getServerRootUrl url = some root)
    (hcache : freshCacheToken env m root = none)
    (hpend : lookupPending m root = some o) :
    getTokenForServer env m url = some ⟨o, m, []⟩ := by
  unfold getTokenForServer
  rw [hroot]
  dsimp only
  rw [hcache]
  dsimp only
  rw [hpend]

theorem getTokenForServer_run_eq (env : Env) (m : Manager) (url root : String)
    (hroot : getServerRootUrl url = some root)
    (hcache : freshCacheToken env m root = none)
    (hpend : lookupPending m root = none) :
    getTokenForServer env m url =
      some (match (serverTokenChain env m url root).res with
            | .ok entry =>
              (⟨.ok entry.token,
                { (serverTokenChain env m url root).st with
                  federatedServers :=
                    alistInsert (serverTokenChain env m url root).st.federatedServers root entry
                  _pendingTokenRequests :=
                    alistErase (serverTokenChain env m url root).st._pendingTokenRequests root },
                (serverTokenChain env m url root).ops⟩ : StepResult (Option String))
            | .error e =>
              ⟨.error e,
               { (serverTokenChain env m url root).st with
                 _pendingTokenRequests :=
                   alistInsert (serverTokenChain env m url root).st._pendingTokenRequests root
                     (some (.error e)) },
               (serverTokenChain env m url root).ops⟩) := by
  unfold getTokenForServer
  rw [hroot]
  dsimp only
  rw [hcache]
  dsimp only
  rw [hpend]
  cases (serverTokenChain env m url root).res <;> rfl

theorem getFreshToken_run_eq (env : Env) (m : Manager) (e : Int)
    (h1 : m.tokenExpires = some e) (h2 : e ≤ env.now)
    (h3 : lookupPending m m.portal = none) :
    getFreshToken env m =
      (match (refreshCredentials env m).res with
       | .ok _ =>
         (⟨.ok (refreshCredentials env m).st.token,
           { (refreshCredentials env m).st with
             _pendingTokenRequests :=
               alistInsert (refreshCredentials env m).st._pendingTokenRequests m.portal none },
           (refreshCredentials env m).ops⟩ : StepResult (Option String))
       | .error err =>
         ⟨.error err,
          { (refreshCredentials env m).st with
            _pendingTokenRequests :=
              alistInsert (refreshCredentials env m).st._pendingTokenRequests m.portal
                (some (.error err)) },
          (refreshCredentials env m).ops⟩) := by
  unfold getFreshToken
  rw [h1]
  have hd : decide (e > env.now) = false := by
    simp only [decide_eq_false_iff_not, not_lt]
    exact h2
  show (if (truthyS m.token && Option.isNone (some e)) = true then _
        else if (truthyS m.token && decide (e > env.now)) = true then _ else _) = _
  rw [hd]
  simp only [Option.isNone_some, Bool.and_false]
  rw [if_neg Bool.false_ne_true, if_neg Bool.false_ne_true]
  rw [h3]

/-- C1 (amended): for an acquisition operation actually started (stale home
token / no cache hit, no pending entry), the pending entry is cleared only
when the operation resolves: `getFreshToken` nulls the portal entry and
`getTokenForServer` deletes the root entry on success, but on rejection the
settled rejected operation remains stored under its key and a later call with
the same key returns that cached rejection — unchanged state, no operations —
instead of starting a fresh acquisition. -/
theorem C1_cleared_only_on_success (env : Env) (m : Manager) :
    (∀ e : Int, m.tokenExpires = some e → e ≤ env.now → lookupPending m m.portal = none →
       ((getFreshToken env m).res.isOk = true →
          lookupPending (getFreshToken env m).st m.portal = none) ∧
       (∀ err, (getFreshToken env m).res = .error err →
          lookupPending (getFreshToken env m).st m.portal = some (.error err) ∧
          getFreshToken env (getFreshToken env m).st =
            ⟨.error err, (getFreshToken env m).st, []⟩)) ∧
    (∀ url root, getServerRootUrl url = some root →
       freshCacheToken env m root = none → lookupPending m root = none →
       ∀ R, getTokenForServer env m url = some R →
         (R.res.isOk = true → lookupPending R.st root = none) ∧
         (∀ err, R.res = .error err →
            lookupPending R.st root = some (.error err) ∧
            getTokenForServer env R.st url = some ⟨.error err, R.st, []⟩)) := by
  constructor
  · intro e h1 h2 h3
    have hgf := getFreshToken_run_eq env m e h1 h2 h3
    cases hres : (refreshCredentials env m).res with
    | ok u =>
      rw [hres] at hgf
      dsimp only at hgf
      constructor
      · intro _
        rw [hgf]
        dsimp only
        simp [lookupPending, alistLookup_insert]
      · intro err herr
        rw [hgf] at herr
        dsimp only at herr
        simp at herr
    | error e2 =>
      have hst := refreshCredentials_error_st env m e2 hres
      rw [hres] at hgf
      rw [hst] at hgf
      dsimp only at hgf
      constructor
      · intro hok
        rw [hgf] at hok
        dsimp only at hok
        simp [Except.isOk, Except.toBool] at hok
      · intro err herr
        rw [hgf] at herr
        dsimp only at herr
        injection herr with h
        subst h
        rw [hgf]
        dsimp only
        constructor
        · simp [lookupPending, alistLookup_insert]
        · exact getFreshToken_pending_hit env _ e _ h1 h2
            (by simp [lookupPending, alistLookup_insert])
  · intro url root hroot hcache hpend R hR
    have hrun := getTokenForServer_run_eq env m url root hroot hcache hpend
    have hfed : (serverTokenChain env m url root).st.federatedServers = m.federatedServers :=
      (serverTokenChain_cacheEq env m url root).1
    cases hres : (serverTokenChain env m url root).res with
    | ok entry =>
      rw [hres] at hrun
      dsimp only at hrun
      rw [hrun] at hR
      injection hR with hR2
      subst hR2
      constructor
      · intro _
        dsimp only
        simp [lookupPending, alistLookup_erase]
      · intro err herr
        dsimp only at herr
        simp at herr
    | error e2 =>
      rw [hres] at hrun
      dsimp only at hrun
      rw [hrun] at hR
      injection hR with hR2
      subst hR2
      constructor
      · intro hok
        dsimp only at hok
        simp [Except.isOk, Except.toBool] at hok
      · intro err herr
        dsimp only at herr
        injection herr with h
        subst h
        constructor
        · dsimp only
          simp [lookupPending, alistLookup_insert]
        · refine getTokenForServer_pending_hit env _ url root _ hroot ?_ ?_
          · exact (freshCacheToken_congr env root hfed).trans hcache
          · simp [lookupPending, alistLookup_insert]

/-- C1 counterexample: a manager with a stale token and no credential
material, against a failing transport. The refresh operation settles
(rejected), yet the pending entry for the portal is NOT cleared, and a second
`getFreshToken` call returns the cached rejected outcome with no operations
instead of starting a fresh acquisition — contradicting the claim that the
entry is cleared once the operation settles. -/
theorem C1_counterexample :
    (getFreshToken envDown { mgrBase with _token := some "old", _tokenExpires := some 10 }).res =
      .error (.tokenRequest .TOKEN_REFRESH_FAILED
        "Unable to refresh token. No refresh token or password present.") ∧
    lookupPending
      (getFreshToken envDown { mgrBase with _token := some "old", _tokenExpires := some 10 }).st
      mgrBase.portal ≠ none ∧
    getFreshToken envDown
        (getFreshToken envDown { mgrBase with _token := some "old", _tokenExpires := some 10 }).st =
      ⟨.error (.tokenRequest .TOKEN_REFRESH_FAILED
         "Unable to refresh token. No refresh token or password present."),
       (getFreshToken envDown { mgrBase with _token := some "old", _tokenExpires := some 10 }).st,
       []⟩ := by
  refine ⟨rfl, ?_, rfl⟩
  decide

theorem serverTokenChain_notFed (env : Env) (m : Manager) (url root : String)
    (mfa : Manager) (opsfa : List Op) (si : ServerInfo) (owner : String)
    (hfa : fetchAuthorizedDomains env m = ⟨.ok (), mfa, opsfa⟩)
    (hri : env.tp.restInfo (root ++ "/rest/info") = .ok si)
    (hos : si.owningSystemUrl = some owner)
    (hfed : env.isFederatedCheck owner m.portal = false) :
    serverTokenChain env m url root =
      ⟨.error (.tokenRequest .NOT_FEDERATED
         (url ++ " is not federated with " ++ m.portal ++ ".")),
       mfa, opsfa ++ [.net (.restInfo (root ++ "/rest/info"))]⟩ := by
  have hport : mfa.portal = m.portal := by
    have h := (fetchAuthorizedDomains_cacheEq env m).2.2.1
    rw [hfa] at h
    exact h
  unfold serverTokenChain
  rw [hfa]
  dsimp only
  rw [hri]
  dsimp only
  rw [hos]
  dsimp only
  rw [hport, hfed]
  simp only [Bool.not_false]
  simp only [if_true]

/-- C3: when `{root}/rest/info` reports an `owningSystemUrl` that the
federation-check predicate does not recognize against the manager's portal,
`getTokenForServer` rejects with NOT_FEDERATED and leaves `federatedServers`
unchanged; more generally, any rejected `getTokenForServer` call leaves
`federatedServers` exactly as it was (the cache entry is written only by the
final success handler of the chain). -/
theorem C3_notFederated_spec (env : Env) (m : Manager) (url root : String) :
    (∀ (mfa : Manager) (opsfa : List Op) (si : ServerInfo) (owner : String),
       getServerRootUrl url = some root →
       freshCacheToken env m root = none →
       lookupPending m root = none →
       fetchAuthorizedDomains env m = ⟨.ok (), mfa, opsfa⟩ →
       env.tp.restInfo (root ++ "/rest/info") = .ok si →
       si.owningSystemUrl = some owner →
       env.isFederatedCheck owner m.portal = false →
       ∃ R, getTokenForServer env m url = some R ∧
         R.res = .error (.tokenRequest .NOT_FEDERATED
           (url ++ " is not federated with " ++ m.portal ++ ".")) ∧
         R.st.federatedServers = m.federatedServers) ∧
    (∀ R err, getTokenForServer env m url = some R → R.res = .error err →
       R.st.federatedServers = m.federatedServers) := by
  constructor
  · intro mfa opsfa si owner hroot hcache hpend hfa hri hos hfed
    have hrun := getTokenForServer_run_eq env m url root hroot hcache hpend
    have hchain := serverTokenChain_notFed env m url root mfa opsfa si owner hfa hri hos hfed
    rw [hchain] at hrun
    dsimp only at hrun
    have hfedm : mfa.federatedServers = m.federatedServers := by
      have h := (fetchAuthorizedDomains_cacheEq env m).1
      rw [hfa] at h
      exact h
    exact ⟨_, hrun, rfl, hfedm⟩
  · intro R err hR herr
    unfold getTokenForServer at hR
    cases hroot2 : getServerRootUrl url with
    | none =>
      rw [hroot2] at hR
      exact absurd hR (by simp)
    | some root2 =>
      rw [hroot2] at hR
      dsimp only at hR
      cases hc : freshCacheToken env m root2 with
      | some tk =>
        rw [hc] at hR
        dsimp only at hR
        injection hR with h
        subst h
        simp at herr
      | none =>
        rw [hc] at hR
        dsimp only at hR
        cases hp : lookupPending m root2 with
        | some o =>
          rw [hp] at hR
          dsimp only at hR
          injection hR with h
          subst h
          rfl
        | none =>
          rw [hp] at hR
          dsimp only at hR
          cases hcr : (serverTokenChain env m url root2).res with
          | ok entry =>
            rw [hcr] at hR
            dsimp only at hR
            injection hR with h
            subst h
            simp at herr
          | error e2 =>
            rw [hcr] at hR
            dsimp only at hR
            injection hR with h
            subst h
            exact (serverTokenChain_cacheEq env m url root2).1

theorem Manager.username_of_noUser (m2 : Manager) (h : m2._user = none) :
    m2.username = m2._username := by
  unfold Manager.username
  rw [h]
  cases m2._username <;> rfl

/-- C7 (amended): `deserialize (serialize m)` needs no transport at all (it
is a pure function of the record) and reproduces every scalar and date field
(`clientId`, `refreshToken`, `refreshTokenExpires`, `username`, `password`,
`token`, `tokenExpires`, `portal`, `ssl`, `tokenDuration`, `redirectUri`,
`server`); `trustedDomains`, the pending maps and the cached snapshots are
empty — but `federatedServers` is empty only when `server` is unset: a
server-scoped manager gets the constructor-seeded entry for its server root.
The hypotheses are the constructor invariants (`portal` clean and nonempty,
`tokenDuration` nonzero, parseable `server`). -/
theorem C7_roundtrip_spec (m : Manager)
    (hp1 : m.portal ≠ "") (hp2 : cleanUrl m.portal = m.portal)
    (hdur : m.tokenDuration ≠ 0)
    (hserver : ∀ s, m.server = some s → s ≠ "" → ∃ root, getServerRootUrl s = some root) :
    ∃ m2, Manager.deserialize m.toJSON = some m2 ∧
      m2.clientId = m.clientId ∧ m2._refreshToken = m._refreshToken ∧
      m2._refreshTokenExpires = m._refreshTokenExpires ∧
      m2.username = m.username ∧ m2.password = m.password ∧
      m2._token = m._token ∧ m2._tokenExpires = m._tokenExpires ∧
      m2.portal = m.portal ∧ m2.ssl = m.ssl ∧ m2.tokenDuration = m.tokenDuration ∧
      m2.redirectUri = m.redirectUri ∧ m2.server = m.server ∧
      m2.trustedDomains = [] ∧ m2._pendingTokenRequests = [] ∧
      m2._user = none ∧ m2._portalInfo = none ∧
      (truthyS m.server = false → m2.federatedServers = []) ∧
      (∀ s root, m.server = some s → s ≠ "" → getServerRootUrl s = some root →
         m2.federatedServers = [(root, { token := m.token, expires := m.tokenExpires })]) := by
  have hpt : truthyS (some m.portal) = true := by
    simp [truthyS, hp1]
  have hd0 : (m.tokenDuration == 0) = false := by
    simp [hdur]
  have htn : truthyS none = false := rfl
  cases hs : m.server with
  | none =>
    have hD : Manager.deserialize m.toJSON = some
        { clientId := m.clientId, _refreshToken := m.refreshToken,
          _refreshTokenExpires := m.refreshTokenExpires, _username := m.username,
          password := m.password, _token := m.token, _tokenExpires := m.tokenExpires,
          portal := m.portal, ssl := m.ssl, provider := "arcgis",
          tokenDuration := m.tokenDuration, redirectUri := m.redirectUri,
          server := none, federatedServers := [], trustedDomains := [],
          _user := none, _portalInfo := none, _pendingTokenRequests := [] } := by
      unfold Manager.deserialize Manager.create Manager.toJSON
      dsimp only
      rw [hs]
      simp only [hpt, hd0, htn, Option.getD_some, Bool.false_eq_true, if_false, if_true]
      rw [hp2]
    refine ⟨_, hD, rfl, rfl, rfl, ?_, rfl, rfl, rfl, rfl, rfl, rfl, rfl, rfl, rfl, rfl,
      rfl, rfl, fun _ => rfl, ?_⟩
    · rw [Manager.username_of_noUser _ rfl]
    · intro s root hms
      exact absurd hms (by simp)
  | some s =>
    by_cases hse : s = ""
    · subst hse
      have hts : truthyS (some "") = false := rfl
      have hD : Manager.deserialize m.toJSON = some
          { clientId := m.clientId, _refreshToken := m.refreshToken,
            _refreshTokenExpires := m.refreshTokenExpires, _username := m.username,
            password := m.password, _token := m.token, _tokenExpires := m.tokenExpires,
            portal := m.portal, ssl := m.ssl, provider := "arcgis",
            tokenDuration := m.tokenDuration, redirectUri := m.redirectUri,
            server := some "", federatedServers := [], trustedDomains := [],
            _user := none, _portalInfo := none, _pendingTokenRequests := [] } := by
        unfold Manager.deserialize Manager.create Manager.toJSON
        dsimp only
        rw [hs]
        simp only [hpt, hd0, htn, hts, Option.getD_some, Bool.false_eq_true, if_false, if_true]
        rw [hp2]
      refine ⟨_, hD, rfl, rfl, rfl, ?_, rfl, rfl, rfl, rfl, rfl, rfl, rfl, rfl, rfl, rfl,
        rfl, rfl, fun _ => rfl, ?_⟩
      · rw [Manager.username_of_noUser _ rfl]
      · intro s2 root hms hs2
        injection hms with h
        exact absurd h.symm hs2
    · obtain ⟨root, hroot⟩ := hserver s hs hse
      have hst : truthyS (some s) = true := by
        simp [truthyS, hse]
      have hD : Manager.deserialize m.toJSON = some
          { clientId := m.clientId, _refreshToken := m.refreshToken,
            _refreshTokenExpires := m.refreshTokenExpires, _username := m.username,
            password := m.password, _token := m.token, _tokenExpires := m.tokenExpires,
            portal := m.portal, ssl := m.ssl, provider := "arcgis",
            tokenDuration := m.tokenDuration, redirectUri := m.redirectUri,
            server := some s,
            federatedServers := [(root, { token := m.token, expires := m.tokenExpires })],
            trustedDomains := [],
            _user := none, _portalInfo := none, _pendingTokenRequests := [] } := by
        unfold Manager.deserialize Manager.create Manager.toJSON
        dsimp only
        rw [hs]
        simp only [hpt, hst, hd0, htn, Option.getD_some, Bool.false_eq_true, if_false, if_true]
        rw [hp2]
        rw [hroot]
      refine ⟨_, hD, rfl, rfl, rfl, ?_, rfl, rfl, rfl, rfl, rfl, rfl, rfl, rfl, rfl, rfl,
        rfl, rfl, ?_, ?_⟩
      · rw [Manager.username_of_noUser _ rfl]
      · intro hfalse
        rw [hst] at hfalse
        simp at hfalse
      · intro s2 root2 hms hs2 hroot2
        injection hms with h
        subst h
        rw [hroot] at hroot2
        injection hroot2 with h2
        subst h2
        rfl

/-- C7 counterexample: for a server-scoped manager the deserialized instance
does NOT have empty `federatedServers` — the constructor pre-registers the
server root — refuting the claim as stated. -/
theorem C7_counterexample :
    (Manager.deserialize (Manager.toJSON
        { mgrBase with server := some "https://srv.example.com/arcgis",
                       _token := some "tok", _tokenExpires := some 99 })).isSome = true ∧
    (Manager.deserialize (Manager.toJSON
        { mgrBase with server := some "https://srv.example.com/arcgis",
                       _token := some "tok", _tokenExpires := some 99 })).map
      Manager.federatedServers ≠ some [] := by
  constructor
  · decide
  · decide

/-! ## Lemmas about the `getServerRootUrl` string machinery -/

theorem listStartsWith_of_append (p q cs : List Char)
    (h : listStartsWith (p ++ q) cs = true) : listStartsWith p cs = true := by
  induction p generalizing cs with
  | nil => rfl
  | cons x ps ih =>
    cases cs with
    | nil => simp [listStartsWith] at h
    | cons c cs' =>
      simp only [List.cons_append, listStartsWith, Bool.and_eq_true] at h ⊢
      exact ⟨h.1, ih cs' h.2⟩

theorem servicesAt_ne_slash (c : Char) (cs : List Char) (h : c ≠ '/') :
    servicesAt (c :: cs) = false := by
  unfold servicesAt
  have e1 : listStartsWith "/rest/services".data (c :: cs) =
      ((('/' : Char) == c) && listStartsWith "rest/services".data cs) := rfl
  have e2 : listStartsWith "/rest/admin/services".data (c :: cs) =
      ((('/' : Char) == c) && listStartsWith "rest/admin/services".data cs) := rfl
  have hb : ((('/' : Char) == c)) = false := by
    rw [beq_eq_false_iff_ne]
    exact Ne.symm h
  rw [e1, e2, hb]
  rfl

theorem servicesAt_slash (b : List Char)
    (hrest : listStartsWith "rest/".data b = false) :
    servicesAt ('/' :: b) = false := by
  have h1 : listStartsWith "rest/services".data b = false := by
    cases hx : listStartsWith "rest/services".data b
    · rfl
    · have hsp : ("rest/services".data : List Char) = "rest/".data ++ "services".data := by
        decide
      rw [hsp] at hx
      rw [listStartsWith_of_append _ _ _ hx] at hrest
      cases hrest
  have h2 : listStartsWith "rest/admin/services".data b = false := by
    cases hx : listStartsWith "rest/admin/services".data b
    · rfl
    · have hsp : ("rest/admin/services".data : List Char) =
          "rest/".data ++ "admin/services".data := by decide
      rw [hsp] at hx
      rw [listStartsWith_of_append _ _ _ hx] at hrest
      cases hrest
  unfold servicesAt
  have e1 : listStartsWith "/rest/services".data ('/' :: b) =
      ((('/' : Char) == '/') && listStartsWith "rest/services".data b) := rfl
  have e2 : listStartsWith "/rest/admin/services".data ('/' :: b) =
      ((('/' : Char) == '/') && listStartsWith "rest/admin/services".data b) := rfl
  rw [e1, e2, h1, h2]
  rfl

theorem takeToServices_append (a b : List Char)
    (h : ∀ t, t ≠ [] → t <:+ a → servicesAt (t ++ b) = false) :
    takeToServices (a ++ b) = a ++ takeToServices b := by
  induction a with
  | nil => rfl
  | cons x a' ih =>
    have hx : servicesAt ((x :: a') ++ b) = false :=
      h (x :: a') (by simp) (List.suffix_refl _)
    simp only [List.cons_append] at hx
    show (if servicesAt (x :: (a' ++ b)) then [] else x :: takeToServices (a' ++ b)) =
      x :: (a' ++ takeToServices b)
    rw [hx, if_neg Bool.false_ne_true]
    rw [ih (fun t ht hsuf => h t ht (hsuf.trans (List.suffix_cons x a')))]

theorem restOfLine_id (cs : List Char) (h : ∀ c ∈ cs, c ≠ '\n' ∧ c ≠ '\r') :
    restOfLine cs = cs := by
  induction cs with
  | nil => rfl
  | cons c cs' ih =>
    have hc := h c (by simp)
    unfold restOfLine
    rw [List.takeWhile_cons]
    have hcb : (!(c == '\n') && !(c == '\r')) = true := by
      simp [hc.1, hc.2]
    rw [hcb, if_pos rfl]
    have := ih (fun x hx => h x (by simp [hx]))
    unfold restOfLine at this
    rw [this]

theorem takeToServices_mem (cs : List Char) (c : Char)
    (h : c ∈ takeToServices cs) : c ∈ cs := by
  induction cs with
  | nil => simp [takeToServices] at h
  | cons x cs' ih =>
    unfold takeToServices at h
    by_cases hx : servicesAt (x :: cs') = true
    · rw [if_pos hx] at h
      simp at h
    · rw [if_neg hx] at h
      cases h with
      | head => exact List.mem_cons_self _ _
      | tail _ hm => exact List.mem_cons_of_mem _ (ih hm)

theorem findProtocol_https (r : List Char) (hne : r ≠ [])
    (hnl : ∀ c ∈ r, c ≠ '\n' ∧ c ≠ '\r') :
    findProtocol ("https://".data ++ r) = some ("https://".data, r) := by
  have hr : restOfLine r = r := restOfLine_id r hnl
  have hemp : r.isEmpty = false := by
    cases r
    · exact absurd rfl hne
    · rfl
  show findProtocol ('h' :: 't' :: 't' :: 'p' :: 's' :: ':' :: '/' :: '/' :: r) =
    some ("https://".data, r)
  unfold findProtocol
  rw [show listStartsWith "https://".data
      ('h' :: 't' :: 't' :: 'p' :: 's' :: ':' :: '/' :: '/' :: r) = true from rfl]
  rw [if_pos rfl]
  show (if (restOfLine r).isEmpty = true then _ else
      some ("https://".data, restOfLine r)) = some ("https://".data, r)
  rw [hr, hemp, if_neg Bool.false_ne_true]

theorem splitOnSlash_no_slash (a : List Char) (h : ∀ c ∈ a, c ≠ '/') :
    splitOnSlash a = [a] := by
  induction a with
  | nil => rfl
  | cons c a' ih =>
    have hc : (c == '/') = false := by
      rw [beq_eq_false_iff_ne]
      exact h c (by simp)
    unfold splitOnSlash
    rw [hc, if_neg Bool.false_ne_true]
    rw [ih (fun x hx => h x (by simp [hx]))]

theorem splitOnSlash_append_slash (a b : List Char) (h : ∀ c ∈ a, c ≠ '/') :
    splitOnSlash (a ++ '/' :: b) = a :: splitOnSlash b := by
  induction a with
  | nil =>
    show splitOnSlash ('/' :: b) = [] :: splitOnSlash b
    rw [splitOnSlash]
    rw [show (('/' : Char) == '/') = true from rfl, if_pos rfl]
  | cons c a' ih =>
    have hc : (c == '/') = false := by
      rw [beq_eq_false_iff_ne]
      exact h c (by simp)
    show splitOnSlash (c :: (a' ++ '/' :: b)) = (c :: a') :: splitOnSlash b
    rw [splitOnSlash]
    rw [hc, if_neg Bool.false_ne_true]
    rw [ih (fun x hx => h x (by simp [hx]))]

theorem splitOnSlash_ne_nil (cs : List Char) : splitOnSlash cs ≠ [] := by
  cases cs with
  | nil => simp [splitOnSlash]
  | cons c cs' =>
    unfold splitOnSlash
    split
    · simp
    · split <;> simp

theorem joinSlash_splitOnSlash (cs : List Char) :
    joinSlash (splitOnSlash cs) = cs := by
  induction cs with
  | nil => rfl
  | cons c cs' ih =>
    rw [splitOnSlash]
    by_cases hc : (c == '/') = true
    · rw [if_pos hc]
      cases hS : splitOnSlash cs' with
      | nil => exact absurd hS (splitOnSlash_ne_nil cs')
      | cons p ps =>
        rw [hS] at ih
        have hj : joinSlash ([] :: p :: ps) = '/' :: joinSlash (p :: ps) := rfl
        rw [hj, ih]
        rw [eq_of_beq hc]
    · rw [if_neg hc]
      cases hS : splitOnSlash cs' with
      | nil => exact absurd hS (splitOnSlash_ne_nil cs')
      | cons p ps =>
        rw [hS] at ih
        cases ps with
        | nil =>
          have h1 : joinSlash [c :: p] = c :: p := rfl
          have h2 : joinSlash [p] = p := rfl
          rw [h2] at ih
          rw [h1, ih]
        | cons p2 ps2 =>
          have h1 : joinSlash ((c :: p) :: p2 :: ps2) =
              (c :: p) ++ '/' :: joinSlash (p2 :: ps2) := rfl
          have h2 : joinSlash (p :: p2 :: ps2) = p ++ '/' :: joinSlash (p2 :: ps2) := rfl
          rw [h2] at ih
          rw [h1, ← ih]
          rfl

/-- C4: for a well-formed `https` URL `https://host/path` (nonempty
slash-free host, no line terminators, and no pathological `rest/`-prefixed
host boundary or trailing slash), `getServerRootUrl` keeps the protocol,
lower-cases exactly the host, and keeps — case preserved — precisely the
characters of the path before the first `/rest/services` or
`/rest/admin/services` segment (`takeToServices`, the prefix before the
first match of the services pattern); and, in particular, on
`"https://Foo.Com/arcgis/rest/services/X/FeatureServer"` it returns
`"https://foo.com/arcgis"`. -/
theorem C4_getServerRootUrl_spec :
    (∀ host path : List Char,
       host ≠ [] →
       (∀ c ∈ host, c ≠ '/' ∧ c ≠ '\n' ∧ c ≠ '\r') →
       (∀ c ∈ path, c ≠ '\n' ∧ c ≠ '\r') →
       listStartsWith "rest/".data (host ++ '/' :: path) = false →
       cleanUrlChars ("https://".data ++ (host ++ '/' :: path)) =
         "https://".data ++ (host ++ '/' :: path) →
       getServerRootUrlChars ("https://".data ++ (host ++ '/' :: path)) =
         some ("https://".data ++ (host.map Char.toLower ++
           '/' :: (takeToServices ('/' :: path)).drop 1))) ∧
    getServerRootUrl "https://Foo.Com/arcgis/rest/services/X/FeatureServer" =
      some "https://foo.com/arcgis" := by
  constructor
  · intro host path hne hhost hpath hrest hclean
    have hA1 : takeToServices ("https://".data ++ (host ++ '/' :: path)) =
        "https://".data ++ takeToServices (host ++ '/' :: path) := by
      apply takeToServices_append
      intro t ht hsuf
      rw [show ("https://".data : List Char) =
          'h' :: 't' :: 't' :: 'p' :: 's' :: ':' :: '/' :: '/' :: [] from rfl] at hsuf
      simp only [List.suffix_cons_iff, List.suffix_nil] at hsuf
      rcases hsuf with rfl | rfl | rfl | rfl | rfl | rfl | rfl | rfl | rfl
      · exact servicesAt_ne_slash _ _ (by decide)
      · exact servicesAt_ne_slash _ _ (by decide)
      · exact servicesAt_ne_slash _ _ (by decide)
      · exact servicesAt_ne_slash _ _ (by decide)
      · exact servicesAt_ne_slash _ _ (by decide)
      · exact servicesAt_ne_slash _ _ (by decide)
      · rfl
      · exact servicesAt_slash _ hrest
      · exact absurd rfl ht
    have hA2 : takeToServices (host ++ '/' :: path) =
        host ++ takeToServices ('/' :: path) := by
      apply takeToServices_append
      intro t ht hsuf
      cases t with
      | nil => exact absurd rfl ht
      | cons c t' =>
        have hcm : c ∈ host := hsuf.sublist.subset (by simp)
        exact servicesAt_ne_slash c _ ((hhost c hcm).1)
    have hT : takeToServices ('/' :: path) = [] ∨
        takeToServices ('/' :: path) = '/' :: takeToServices path := by
      rw [takeToServices]
      by_cases hx : servicesAt ('/' :: path) = true
      · left
        rw [if_pos hx]
      · right
        rw [if_neg hx]
    unfold getServerRootUrlChars
    dsimp only
    rw [hclean, hA1, hA2]
    rcases hT with hT | hT <;> rw [hT]
    · rw [List.append_nil]
      rw [findProtocol_https host hne (fun c hc => ⟨(hhost c hc).2.1, (hhost c hc).2.2⟩)]
      dsimp only
      rw [splitOnSlash_no_slash host (fun c hc => (hhost c hc).1)]
      simp [List.append_assoc]
      rfl
    · have hnl2 : ∀ c ∈ host ++ '/' :: takeToServices path, c ≠ '\n' ∧ c ≠ '\r' := by
        intro c hc
        rcases List.mem_append.mp hc with hc | hc
        · exact ⟨(hhost c hc).2.1, (hhost c hc).2.2⟩
        · rcases List.mem_cons.mp hc with rfl | hc
          · exact ⟨by decide, by decide⟩
          · exact hpath c (takeToServices_mem path c hc)
      rw [findProtocol_https _ (by simp) hnl2]
      dsimp only
      rw [splitOnSlash_append_slash host _ (fun c hc => (hhost c hc).1)]
      dsimp only
      rw [joinSlash_splitOnSlash]
      simp [List.append_assoc]
  · decide

/-! ## Witnesses -/

theorem C1_witness :
    lookupPending
        (getFreshToken envDown { mgrBase with _token := some "old", _tokenExpires := some 10 }).st
        ({ mgrBase with _token := some "old", _tokenExpires := some 10 } : Manager).portal =
      some (.error (.tokenRequest .TOKEN_REFRESH_FAILED
        "Unable to refresh token. No refresh token or password present.")) ∧
    getFreshToken envDown
        (getFreshToken envDown { mgrBase with _token := some "old", _tokenExpires := some 10 }).st =
      ⟨.error (.tokenRequest .TOKEN_REFRESH_FAILED
         "Unable to refresh token. No refresh token or password present."),
       (getFreshToken envDown { mgrBase with _token := some "old", _tokenExpires := some 10 }).st,
       []⟩ :=
  ((C1_cleared_only_on_success envDown
      { mgrBase with _token := some "old", _tokenExpires := some 10 }).1
    10 rfl (by decide) rfl).2 _ rfl

theorem C2_witness :
    getTokenForServer envDown
        { mgrBase with
          _pendingTokenRequests :=
            [("https://srv.example.com/arcgis", some (.ok (some "cached")))] }
        "https://srv.example.com/arcgis/rest/services/L/FeatureServer" =
      some ⟨.ok (some "cached"),
            { mgrBase with
              _pendingTokenRequests :=
                [("https://srv.example.com/arcgis", some (.ok (some "cached")))] }, []⟩ ∧
    getFreshToken envDown
        { mgrBase with
          _token := some "t"
          _tokenExpires := some 10
          _pendingTokenRequests :=
            [("https://www.arcgis.com/sharing/rest", some (.ok (some "joined")))] } =
      ⟨.ok (some "joined"),
       { mgrBase with
         _token := some "t"
         _tokenExpires := some 10
         _pendingTokenRequests :=
           [("https://www.arcgis.com/sharing/rest", some (.ok (some "joined")))] }, []⟩ :=
  ⟨(C2_pendingDedup_spec envDown _ "https://srv.example.com/arcgis/rest/services/L/FeatureServer"
      "https://srv.example.com/arcgis" (.ok (some "cached"))).1 (by decide) rfl rfl,
   (C2_pendingDedup_spec envDown _ "x" "y" (.ok (some "joined"))).2 10 rfl (by decide) rfl⟩

theorem C3_witness :
    ∃ R, getTokenForServer envStub mgrBase
        "https://srv.example.com/arcgis/rest/services/L/FeatureServer" = some R ∧
      R.res = .error (.tokenRequest .NOT_FEDERATED
        ("https://srv.example.com/arcgis/rest/services/L/FeatureServer" ++
          " is not federated with " ++ mgrBase.portal ++ ".")) ∧
      R.st.federatedServers = mgrBase.federatedServers :=
  (C3_notFederated_spec envStub mgrBase
      "https://srv.example.com/arcgis/rest/services/L/FeatureServer"
      "https://srv.example.com/arcgis").1
    { mgrBase with _portalInfo := some { authorizedCrossOriginDomains := [] } }
    [.net (.portalSelf "https://www.arcgis.com/sharing/rest/portals/self")]
    { owningSystemUrl := some "https://owning.portal.example", authInfo := none }
    "https://owning.portal.example"
    (by decide) rfl rfl rfl rfl rfl rfl

theorem C4_witness :
    getServerRootUrlChars ("https://".data ++
        ("Foo.Com".data ++ '/' :: "arcgis/rest/services/X/FeatureServer".data)) =
      some ("https://".data ++ ("Foo.Com".data.map Char.toLower ++
        '/' :: (takeToServices ('/' :: "arcgis/rest/services/X/FeatureServer".data)).drop 1)) :=
  C4_getServerRootUrl_spec.1 "Foo.Com".data "arcgis/rest/services/X/FeatureServer".data
    (by decide) (by decide) (by decide) (by decide) (by decide)

theorem C5_witness :
    generateTokenForServer envStub mgrBase "https://ts.example"
        "https://srv.example.com/arcgis" =
      ⟨.ok { token := some "srvtok", expires := some 700000 }, mgrBase,
       [.net (.generateToken "https://ts.example")]⟩ ∧
    generateTokenForServer envDown mgrBase "https://ts.example"
        "https://srv.example.com/arcgis" =
      ⟨.error (.tokenRequest .GENERATE_TOKEN_FOR_SERVER_FAILED "network down"), mgrBase,
       [.net (.generateToken "https://ts.example")]⟩ :=
  ⟨(C5_generateTokenForServer_spec envStub mgrBase "https://ts.example"
      "https://srv.example.com/arcgis").1 { token := "srvtok", expires := 1000000 } rfl,
   (C5_generateTokenForServer_spec envDown mgrBase "https://ts.example"
      "https://srv.example.com/arcgis").2 ⟨"network down"⟩ rfl⟩

theorem C6_witness :
    getFreshToken envDown { mgrBase with _token := some "tok" } =
      ⟨.ok (some "tok"), { mgrBase with _token := some "tok" }, []⟩ ∧
    getFreshToken envDown { mgrBase with _token := some "tok", _tokenExpires := some 5000 } =
      ⟨.ok (some "tok"),
       { mgrBase with _token := some "tok", _tokenExpires := some 5000 }, []⟩ ∧
    ((getFreshToken envDown
        { mgrBase with _token := some "tok", _tokenExpires := some 10 }).ops.countP
      isRefreshOp) = 1 :=
  ⟨(C6_getFreshToken_spec envDown { mgrBase with _token := some "tok" }).1 rfl rfl,
   (C6_getFreshToken_spec envDown
      { mgrBase with _token := some "tok", _tokenExpires := some 5000 }).2.1
     5000 rfl rfl (by decide),
   ((C6_getFreshToken_spec envDown
      { mgrBase with _token := some "tok", _tokenExpires := some 10 }).2.2
     10 rfl (by decide) rfl).1⟩

theorem C7_witness :
    ∃ m2, Manager.deserialize mgrSrv.toJSON = some m2 ∧
      m2.clientId = mgrSrv.clientId ∧ m2._refreshToken = mgrSrv._refreshToken ∧
      m2._refreshTokenExpires = mgrSrv._refreshTokenExpires ∧
      m2.username = mgrSrv.username ∧ m2.password = mgrSrv.password ∧
      m2._token = mgrSrv._token ∧ m2._tokenExpires = mgrSrv._tokenExpires ∧
      m2.portal = mgrSrv.portal ∧ m2.ssl = mgrSrv.ssl ∧
      m2.tokenDuration = mgrSrv.tokenDuration ∧
      m2.redirectUri = mgrSrv.redirectUri ∧ m2.server = mgrSrv.server ∧
      m2.trustedDomains = [] ∧ m2._pendingTokenRequests = [] ∧
      m2._user = none ∧ m2._portalInfo = none ∧
      (truthyS mgrSrv.server = false → m2.federatedServers = []) ∧
      (∀ s root, mgrSrv.server = some s → s ≠ "" → getServerRootUrl s = some root →
         m2.federatedServers =
           [(root, { token := mgrSrv.token, expires := mgrSrv.tokenExpires })]) :=
  C7_roundtrip_spec mgrSrv (by decide) (by decide) (by decide)
    (fun s hs _ => by
      injection hs with h
      subst h
      exact ⟨"https://srv.example.com/arcgis", by decide⟩)

theorem C8_witness :
    refreshWithRefreshToken envStub
        { mgrBase with
          clientId := some "cid"
          _refreshToken := some "r"
          _refreshTokenExpires := some 80000000 } =
      exchangeRefreshToken envStub
        { mgrBase with
          clientId := some "cid"
          _refreshToken := some "r"
          _refreshTokenExpires := some 80000000 } ∧
    refreshWithRefreshToken envStub
        { mgrBase with
          clientId := some "cid"
          _refreshToken := some "r"
          _refreshTokenExpires := some 10000000000 } =
      ⟨.ok (),
       Manager.updateToken
         { mgrBase with
           clientId := some "cid"
           _refreshToken := some "r"
           _refreshTokenExpires := some 10000000000 } "rtok" 3000000,
       [.net (.oauthToken ("https://www.arcgis.com/sharing/rest" ++ "/oauth2/token")
          "refresh_token")]⟩ :=
  ⟨(C8_refreshWithRefreshToken_spec envStub _).1 80000000 rfl rfl (by decide),
   (C8_refreshWithRefreshToken_spec envStub _).2
     (Or.inr (Or.inr (fun re hre => by
        injection hre with h
        subst h
        decide)))
     { token := "rtok", expires := 3000000, refreshToken := some "newref",
       refreshTokenExpires := some 4000000 } rfl⟩

theorem C9_witness :
    refreshCredentials envDown mgrBase =
      ⟨.error (.tokenRequest .TOKEN_REFRESH_FAILED
         "Unable to refresh token. No refresh token or password present."),
       { mgrBase with _user := none }, [.refreshCall]⟩ ∧
    refreshCredentials envStub { mgrBase with _username := some "u", password := some "p" } =
      ⟨(refreshWithUsernameAndPassword envStub
          { mgrBase with _username := some "u", password := some "p", _user := none }).res,
       (refreshWithUsernameAndPassword envStub
          { mgrBase with _username := some "u", password := some "p", _user := none }).st,
       .refreshCall :: (refreshWithUsernameAndPassword envStub
          { mgrBase with _username := some "u", password := some "p", _user := none }).ops⟩ ∧
    refreshCredentials envStub { mgrBase with clientId := some "c", _refreshToken := some "r" } =
      ⟨(refreshWithRefreshToken envStub
          { mgrBase with clientId := some "c", _refreshToken := some "r", _user := none }).res,
       (refreshWithRefreshToken envStub
          { mgrBase with clientId := some "c", _refreshToken := some "r", _user := none }).st,
       .refreshCall :: (refreshWithRefreshToken envStub
          { mgrBase with clientId := some "c", _refreshToken := some "r", _user := none }).ops⟩ :=
  ⟨(C9_refreshCredentials_spec envDown mgrBase).1 rfl rfl,
   (C9_refreshCredentials_spec envStub _).2.1 rfl,
   (C9_refreshCredentials_spec envStub _).2.2 rfl rfl⟩
